import Mathlib

/-!
Shallow embedding of the MRP laser ROI calculator's financial core
(`src/utils/calculations.ts`): input data model, formula primitives,
the monthly projection step, the projection driver, and the KPI
aggregator pieces.  Monetary arithmetic is embedded over `ℚ` (the
source uses IEEE doubles; every operation in the core except the NPV
and IRR discounting is field arithmetic, so `ℚ` is the exact-real
model of the same formulas).  The NPV discounting uses a fractional
exponent (`Math.pow(1.1, index/12)`), so it is embedded over `ℝ` with
real exponentiation.
-/

/-- Purchase method enumeration, from `FinancingInputs.purchaseMethod`:
`'cash' | 'loan' | 'lease-fmv' | 'lease-capital' | 'promo-0'`. -/
inductive PurchaseMethod where
  | cash
  | loan
  | leaseFMV
  | leaseCapital
  | promo0
deriving DecidableEq, Repr

/-- `'dollar' | 'percent'` discriminator used by `downPaymentType` and
`balloonType`. -/
inductive DollarOrPercent where
  | dollar
  | percent
deriving DecidableEq, Repr

/-- `'straight-line' | 'macrs'` depreciation method. -/
inductive DepreciationMethod where
  | straightLine
  | macrs
deriving DecidableEq, Repr

/-- `'monthly' | 'quarterly'` payment frequency. -/
inductive PaymentFrequency where
  | monthly
  | quarterly
deriving DecidableEq, Repr

/-- `DeviceInputs` from the source. -/
structure DeviceInputs where
  msrp : ℚ
  discount : ℚ
  accessories : ℚ
  shippingInstall : ℚ
  warrantyYears : ℚ
  extendedWarrantyCost : ℚ
  depreciationMethod : DepreciationMethod
  depreciationLife : ℚ
  salvageValue : ℚ
  section179 : Bool
  taxRate : ℚ
deriving DecidableEq, Repr

/-- `FinancingInputs` from the source.  `termMonths` is a month count,
embedded as `ℕ`. -/
structure FinancingInputs where
  purchaseMethod : PurchaseMethod
  downPayment : ℚ
  downPaymentType : DollarOrPercent
  apr : ℚ
  termMonths : ℕ
  paymentFrequency : PaymentFrequency
  balloonResidual : ℚ
  balloonType : DollarOrPercent
  originationFees : ℚ
  deferredMonths : ℕ
  prepaymentPenalty : ℚ
  includeSalesTax : Bool
  salesTaxRate : ℚ
deriving DecidableEq, Repr

/-- `UtilizationInputs` from the source. -/
structure UtilizationInputs where
  openDaysPerMonth : ℚ
  treatmentsPerDay : ℚ
  utilizationRamp : List ℚ
  noShowRate : ℚ
  avgTreatmentTime : ℚ
  seasonality : List ℚ
deriving DecidableEq, Repr

/-- `PricingInputs` from the source (the `packages` array is carried in
the data model but never read by the core calculations, so it is
embedded as the raw list of `(sessions, price, attachRate)` triples). -/
structure PricingInputs where
  listPricePerTreatment : ℚ
  discountPercent : ℚ
  packages : List (ℚ × ℚ × ℚ)
  membershipMRR : ℚ
  membershipPercent : ℚ
  upsellAvgPerTx : ℚ
  upsellAttachRate : ℚ
deriving DecidableEq, Repr

/-- `VariableCosts` from the source. -/
structure VariableCosts where
  consumables : ℚ
  disposables : ℚ
  clinicalTimeCost : ℚ
  roomTimeOverhead : ℚ
  paymentProcessingPercent : ℚ
  paymentProcessingFixed : ℚ
deriving DecidableEq, Repr

/-- `FixedOpex` from the source: eight named monthly cost buckets.
`downtimeReserve` is declared in the UI as a percentage (default `3`)
but is a plain field of this record like the seven dollar buckets. -/
structure FixedOpex where
  marketingBudget : ℚ
  staffSalaryAllocation : ℚ
  rentAllocation : ℚ
  insurance : ℚ
  softwareEMR : ℚ
  maintenancePostWarranty : ℚ
  calibrationService : ℚ
  downtimeReserve : ℚ
deriving DecidableEq, Repr

/-- `CalculatorInputs` from the source. -/
structure CalculatorInputs where
  device : DeviceInputs
  financing : FinancingInputs
  utilization : UtilizationInputs
  pricing : PricingInputs
  variableCosts : VariableCosts
  fixedOpex : FixedOpex
deriving DecidableEq, Repr

/-- `MonthlyResults` record from the source: one record per simulated
month. -/
structure MonthlyResults where
  month : ℕ
  treatments : ℚ
  revenue : ℚ
  variableCosts : ℚ
  grossProfit : ℚ
  fixedOpex : ℚ
  ebitda : ℚ
  depreciation : ℚ
  interest : ℚ
  ebit : ℚ
  taxes : ℚ
  netIncome : ℚ
  cashFlow : ℚ
  cumulativeCash : ℚ
  loanBalance : ℚ
deriving DecidableEq, Repr, Inhabited

/-- `calculatePMT` from the source:
`r = apr / 12; if (r === 0) return principal / termMonths;`
`return (r * principal) / (1 - Math.pow(1 + r, -termMonths));` -/
def calculatePMT (apr : ℚ) (termMonths : ℕ) (principal : ℚ) : ℚ :=
  let r := apr / 12
  if r = 0 then principal / termMonths
  else (r * principal) / (1 - (1 + r) ^ (-(termMonths : ℤ)))

/-- `calculateMonthlyTreatments` from the source.  List reads
`ramp[month-1]` (guarded by `month <= ramp.length`) and
`seasonality[(month-1) % 12]` are embedded with `List.getD`; under the
source's guards and a 12-point seasonality list both accesses are in
bounds, so the default is never consulted. -/
def calculateMonthlyTreatments (openDays treatmentsPerDay noShowRate : ℚ)
    (month : ℕ) (ramp seasonality : List ℚ) : ℚ :=
  let rampFactor := if month ≤ ramp.length then ramp.getD (month - 1) 0 / 100 else 1
  let seasonalityFactor := seasonality.getD ((month - 1) % 12) 0 / 100
  openDays * treatmentsPerDay * (1 - noShowRate / 100) * rampFactor * seasonalityFactor

/-- `calculateNetPricePerTreatment` from the source. -/
def calculateNetPricePerTreatment (listPrice discount upsellAvg upsellAttachRate : ℚ) : ℚ :=
  let discountedPrice := listPrice * (1 - discount / 100)
  let upsellRevenue := upsellAvg * (upsellAttachRate / 100)
  discountedPrice + upsellRevenue

/-- `calculateVariableCostPerTreatment` from the source. -/
def calculateVariableCostPerTreatment (consumables disposables clinicalTimeCost
    avgTreatmentTime roomTimeOverhead paymentProcessingPercent paymentProcessingFixed
    netPrice : ℚ) : ℚ :=
  let clinicalCost := clinicalTimeCost * avgTreatmentTime / 60
  let roomCost := roomTimeOverhead * avgTreatmentTime / 60
  let processingCost := netPrice * paymentProcessingPercent / 100 + paymentProcessingFixed
  consumables + disposables + clinicalCost + roomCost + processingCost

/-- The fixed 6-bucket MACRS annual rate table from the source. -/
def macrsRates : List ℚ := [0.20, 0.32, 0.192, 0.1152, 0.1152, 0.0576]

/-- `calculateDepreciation` from the source. -/
def calculateDepreciation (method : DepreciationMethod) (cost salvageValue life : ℚ)
    (month : ℕ) : ℚ :=
  match method with
  | DepreciationMethod.straightLine => (cost - salvageValue) / (life * 12)
  | DepreciationMethod.macrs =>
      let year := (month - 1) / 12
      if macrsRates.length ≤ year then 0
      else cost * macrsRates.getD year 0 / 12

/-- Total acquisition cost, computed inline in the source as
`device.msrp - device.discount + device.accessories + device.shippingInstall`
(lines 583, 681). -/
def totalAcquisitionCost (device : DeviceInputs) : ℚ :=
  device.msrp - device.discount + device.accessories + device.shippingInstall

/-- Loan principal, computed inline in the source (lines 598-599 and
682-683) as total cost minus the down payment resolved from percent or
flat dollar. -/
def loanPrincipal (inputs : CalculatorInputs) : ℚ :=
  let totalCost := totalAcquisitionCost inputs.device
  totalCost - (if inputs.financing.downPaymentType = DollarOrPercent.percent then
    totalCost * inputs.financing.downPayment / 100 else inputs.financing.downPayment)

/-- Down payment amount, recomputed inline in the source at lines
624-625 for the month-1 cash-flow adjustment. -/
def downPaymentAmount (inputs : CalculatorInputs) : ℚ :=
  let totalCost := totalAcquisitionCost inputs.device
  if inputs.financing.downPaymentType = DollarOrPercent.percent then
    totalCost * inputs.financing.downPayment / 100 else inputs.financing.downPayment

/-- `calculateMonthlyResults` from the source: the monthly projection
step.  The source's sequential mutation of `monthlyPayment`,
`interest`, `newBalance` and `cashFlow` is embedded by explicit
`let`-bindings in the same order. -/
def calculateMonthlyResults (inputs : CalculatorInputs) (month : ℕ)
    (previousBalance previousCumulativeCash : ℚ) : MonthlyResults :=
  let device := inputs.device
  let financing := inputs.financing
  let utilization := inputs.utilization
  let pricing := inputs.pricing
  let variableCosts := inputs.variableCosts
  let fixedOpex := inputs.fixedOpex
  let treatments := calculateMonthlyTreatments utilization.openDaysPerMonth
    utilization.treatmentsPerDay utilization.noShowRate month
    utilization.utilizationRamp utilization.seasonality
  let netPricePerTx := calculateNetPricePerTreatment pricing.listPricePerTreatment
    pricing.discountPercent pricing.upsellAvgPerTx pricing.upsellAttachRate
  let revenue := treatments * netPricePerTx +
    pricing.membershipMRR * (pricing.membershipPercent / 100)
  let variableCostPerTx := calculateVariableCostPerTreatment variableCosts.consumables
    variableCosts.disposables variableCosts.clinicalTimeCost utilization.avgTreatmentTime
    variableCosts.roomTimeOverhead variableCosts.paymentProcessingPercent
    variableCosts.paymentProcessingFixed netPricePerTx
  let totalVariableCosts := treatments * variableCostPerTx
  let grossProfit := revenue - totalVariableCosts
  let totalFixedOpex := fixedOpex.marketingBudget + fixedOpex.staffSalaryAllocation +
    fixedOpex.rentAllocation + fixedOpex.insurance + fixedOpex.softwareEMR +
    fixedOpex.maintenancePostWarranty + fixedOpex.calibrationService +
    fixedOpex.downtimeReserve
  let totalCost := totalAcquisitionCost device
  let depreciation := calculateDepreciation device.depreciationMethod totalCost
    device.salvageValue device.depreciationLife month
  let isLoan := financing.purchaseMethod = PurchaseMethod.loan
  let startBalance := if isLoan then
      (if month = 1 then loanPrincipal inputs else previousBalance)
    else previousBalance
  let monthlyPayment := if isLoan then
      calculatePMT financing.apr financing.termMonths (loanPrincipal inputs)
    else 0
  let interest := if isLoan then startBalance * (financing.apr / 12) else 0
  let newBalance := if isLoan then
      max 0 (startBalance - (monthlyPayment - interest))
    else previousBalance
  let ebitda := grossProfit - totalFixedOpex
  let ebit := ebitda - depreciation
  let taxes := max 0 (ebit * (device.taxRate / 100))
  let netIncome := ebit - taxes
  let cashFlowBase := ebitda - taxes
  let cashFlowMonthOne := if month = 1 then
      (if financing.purchaseMethod = PurchaseMethod.cash then cashFlowBase - totalCost
       else if isLoan then cashFlowBase - downPaymentAmount inputs
       else cashFlowBase)
    else cashFlowBase
  let cashFlow := if isLoan then cashFlowMonthOne - monthlyPayment else cashFlowMonthOne
  let cumulativeCash := previousCumulativeCash + cashFlow
  { month := month
    treatments := treatments
    revenue := revenue
    variableCosts := totalVariableCosts
    grossProfit := grossProfit
    fixedOpex := totalFixedOpex
    ebitda := ebitda
    depreciation := depreciation
    interest := interest
    ebit := ebit
    taxes := taxes
    netIncome := netIncome
    cashFlow := cashFlow
    cumulativeCash := cumulativeCash
    loanBalance := newBalance }

/-- The source's driver loop body (`calculateAllResults`, lines
662-667): run `remaining` months starting at index `month`, threading
`(previousBalance, previousCumulativeCash)` forward. -/
def runMonths (inputs : CalculatorInputs) : ℕ → ℕ → ℚ → ℚ → List MonthlyResults
  | _, 0, _, _ => []
  | month, remaining + 1, previousBalance, previousCumulativeCash =>
      let result := calculateMonthlyResults inputs month previousBalance previousCumulativeCash
      result :: runMonths inputs (month + 1) remaining result.loanBalance result.cumulativeCash

/-- `calculateAllResults` from the source: months 1..`months`, starting
state `(0, 0)`. -/
def calculateAllResults (inputs : CalculatorInputs) (months : ℕ) : List MonthlyResults :=
  runMonths inputs 1 months 0 0

/-- The KPI aggregator's `monthlyPayment` (source lines 679-685). -/
def kpiMonthlyPayment (inputs : CalculatorInputs) : ℚ :=
  if inputs.financing.purchaseMethod = PurchaseMethod.loan then
    calculatePMT inputs.financing.apr inputs.financing.termMonths (loanPrincipal inputs)
  else 0

/-- The KPI aggregator's `grossMarginPerTx` (source lines 688-707): net
price minus variable cost per treatment, the latter fed with the same
net price. -/
def kpiGrossMarginPerTx (inputs : CalculatorInputs) : ℚ :=
  calculateNetPricePerTreatment inputs.pricing.listPricePerTreatment
    inputs.pricing.discountPercent inputs.pricing.upsellAvgPerTx
    inputs.pricing.upsellAttachRate -
  calculateVariableCostPerTreatment inputs.variableCosts.consumables
    inputs.variableCosts.disposables inputs.variableCosts.clinicalTimeCost
    inputs.utilization.avgTreatmentTime inputs.variableCosts.roomTimeOverhead
    inputs.variableCosts.paymentProcessingPercent
    inputs.variableCosts.paymentProcessingFixed
    (calculateNetPricePerTreatment inputs.pricing.listPricePerTreatment
      inputs.pricing.discountPercent inputs.pricing.upsellAvgPerTx
      inputs.pricing.upsellAttachRate)

/-- The KPI aggregator's `totalFixedCosts` (source line 709):
`Object.values(inputs.fixedOpex).reduce((sum, cost) => sum + cost, 0)`,
i.e. the sum of the eight `FixedOpex` fields in declaration order. -/
def kpiTotalFixedCosts (inputs : CalculatorInputs) : ℚ :=
  inputs.fixedOpex.marketingBudget + inputs.fixedOpex.staffSalaryAllocation +
  inputs.fixedOpex.rentAllocation + inputs.fixedOpex.insurance +
  inputs.fixedOpex.softwareEMR + inputs.fixedOpex.maintenancePostWarranty +
  inputs.fixedOpex.calibrationService + inputs.fixedOpex.downtimeReserve

/-- The KPI aggregator's `breakevenTreatmentsPerDay` (source lines
710-711). -/
def kpiBreakevenTreatmentsPerDay (inputs : CalculatorInputs) : ℚ :=
  (kpiTotalFixedCosts inputs + kpiMonthlyPayment inputs) / kpiGrossMarginPerTx inputs /
    inputs.utilization.openDaysPerMonth

/-- JS `Array.prototype.findIndex`: the index of the first element
satisfying the predicate, `none` standing for JS's `-1`. -/
def findIndexOpt (p : MonthlyResults → Bool) : List MonthlyResults → Option ℕ
  | [] => none
  | x :: xs => if p x then some 0 else (findIndexOpt p xs).map (· + 1)

/-- The KPI aggregator's `paybackMonths` (source lines 713-715):
`findIndex(r => r.cumulativeCash >= 0) + 1` (JS `findIndex` yields `-1`
when no element matches), then `paybackMonth > 0 ? paybackMonth :
results.length`. -/
def kpiPaybackMonths (results : List MonthlyResults) : ℤ :=
  let foundIndex : ℤ :=
    match findIndexOpt (fun r => decide (0 ≤ r.cumulativeCash)) results with
    | some i => (i : ℤ)
    | none => -1
  let paybackMonth := foundIndex + 1
  if 0 < paybackMonth then paybackMonth else (results.length : ℤ)

/-- The fold body of the source's NPV reduce (lines 718-721), carrying
the 0-based element index as the discount exponent numerator. -/
noncomputable def npvAux (discountRate : ℝ) : List MonthlyResults → ℕ → ℝ
  | [], _ => 0
  | r :: rest, index =>
      (r.cashFlow : ℝ) / (1 + discountRate) ^ ((index : ℝ) / 12) +
        npvAux discountRate rest (index + 1)

/-- The KPI aggregator's `npv` (source lines 717-721):
`results.reduce((sum, r, index) => sum + r.cashFlow / Math.pow(1 + 0.10, index / 12), 0)`. -/
noncomputable def kpiNpv (results : List MonthlyResults) : ℝ :=
  npvAux 0.10 results 0

/-!
Model artifacts used by the verification: the loan-balance update of
the monthly step (source lines 606-607) abstracted as a recurrence,
and concrete fixtures used to instantiate theorems with hypotheses.
-/

/-- One loan-balance update of the monthly step (source lines 606-607):
with `interest = b * r`, the new balance is
`max(0, b - (monthlyPayment - interest))`. -/
def loanStep (r pmt b : ℚ) : ℚ :=
  max 0 (b - (pmt - b * r))

/-- The loan balance after `m` applications of `loanStep` starting from
the principal `P`. -/
def loanIter (r pmt P : ℚ) : ℕ → ℚ
  | 0 => P
  | m + 1 => loanStep r pmt (loanIter r pmt P m)

/-- All-zero input fixture (cash purchase). -/
def zeroInputs : CalculatorInputs :=
  { device :=
      { msrp := 0
        discount := 0
        accessories := 0
        shippingInstall := 0
        warrantyYears := 0
        extendedWarrantyCost := 0
        depreciationMethod := DepreciationMethod.straightLine
        depreciationLife := 0
        salvageValue := 0
        section179 := false
        taxRate := 0 }
    financing :=
      { purchaseMethod := PurchaseMethod.cash
        downPayment := 0
        downPaymentType := DollarOrPercent.dollar
        apr := 0
        termMonths := 0
        paymentFrequency := PaymentFrequency.monthly
        balloonResidual := 0
        balloonType := DollarOrPercent.dollar
        originationFees := 0
        deferredMonths := 0
        prepaymentPenalty := 0
        includeSalesTax := false
        salesTaxRate := 0 }
    utilization :=
      { openDaysPerMonth := 0
        treatmentsPerDay := 0
        utilizationRamp := []
        noShowRate := 0
        avgTreatmentTime := 0
        seasonality := [] }
    pricing :=
      { listPricePerTreatment := 0
        discountPercent := 0
        packages := []
        membershipMRR := 0
        membershipPercent := 0
        upsellAvgPerTx := 0
        upsellAttachRate := 0 }
    variableCosts :=
      { consumables := 0
        disposables := 0
        clinicalTimeCost := 0
        roomTimeOverhead := 0
        paymentProcessingPercent := 0
        paymentProcessingFixed := 0 }
    fixedOpex :=
      { marketingBudget := 0
        staffSalaryAllocation := 0
        rentAllocation := 0
        insurance := 0
        softwareEMR := 0
        maintenancePostWarranty := 0
        calibrationService := 0
        downtimeReserve := 0 } }

/-- Fixture: a $100 device fully financed by a 2-month zero-APR loan. -/
def loanZeroAprInputs : CalculatorInputs :=
  { zeroInputs with
    device := { zeroInputs.device with msrp := 100 }
    financing := { zeroInputs.financing with
      purchaseMethod := PurchaseMethod.loan
      termMonths := 2 } }

/-- Fixture: a $1200 device fully financed by a 12-month loan at a
stored APR of `12` (meaning 12% under the data model's whole-number
percentage convention). -/
def loanAprTwelveInputs : CalculatorInputs :=
  { zeroInputs with
    device := { zeroInputs.device with msrp := 1200 }
    financing := { zeroInputs.financing with
      purchaseMethod := PurchaseMethod.loan
      apr := 12
      termMonths := 12 } }

/-- Fixture: fair-market-value lease purchase method. -/
def leaseFmvInputs : CalculatorInputs :=
  { zeroInputs with
    financing := { zeroInputs.financing with purchaseMethod := PurchaseMethod.leaseFMV } }

/-- Fixture monthly record with cash flow `12`, used to instantiate the
KPI aggregator on a concrete monthly sequence. -/
def sampleResult : MonthlyResults :=
  { month := 1
    treatments := 0
    revenue := 0
    variableCosts := 0
    grossProfit := 0
    fixedOpex := 0
    ebitda := 0
    depreciation := 0
    interest := 0
    ebit := 0
    taxes := 0
    netIncome := 0
    cashFlow := 12
    cumulativeCash := 12
    loanBalance := 0 }

/-- Fixture monthly record with negative cumulative cash. -/
def negativeResult : MonthlyResults :=
  { sampleResult with
    cashFlow := -5
    cumulativeCash := -5 }

/-! Helper lemmas. -/

lemma cMR_taxes_nonneg (inputs : CalculatorInputs) (month : ℕ) (pb pc : ℚ) :
    0 ≤ (calculateMonthlyResults inputs month pb pc).taxes := by
  simp only [calculateMonthlyResults]
  exact le_max_left 0 _

lemma cMR_balance_nonneg (inputs : CalculatorInputs) (month : ℕ) (pb pc : ℚ)
    (hpb : 0 ≤ pb) : 0 ≤ (calculateMonthlyResults inputs month pb pc).loanBalance := by
  simp only [calculateMonthlyResults]
  split
  · exact le_max_left 0 _
  · exact hpb

lemma runMonths_floors (inputs : CalculatorInputs) :
    ∀ (k month : ℕ) (pb pc : ℚ), 0 ≤ pb →
      ∀ x ∈ runMonths inputs month k pb pc, 0 ≤ x.taxes ∧ 0 ≤ x.loanBalance := by
  intro k
  induction k with
  | zero => intro month pb pc _ x hx; simp [runMonths] at hx
  | succ n ih =>
    intro month pb pc hpb x hx
    rw [runMonths] at hx
    rcases List.mem_cons.1 hx with h | h
    · subst h
      exact ⟨cMR_taxes_nonneg inputs month pb pc, cMR_balance_nonneg inputs month pb pc hpb⟩
    · exact ih (month + 1) _ _ (cMR_balance_nonneg inputs month pb pc hpb) x h

/-- C7: in every month of every projection, taxes and the loan balance
are non-negative. -/
theorem projection_preserves_floors (inputs : CalculatorInputs) (months : ℕ) :
    ∀ x ∈ calculateAllResults inputs months, 0 ≤ x.taxes ∧ 0 ≤ x.loanBalance :=
  runMonths_floors inputs months 1 0 0 le_rfl

theorem projection_preserves_floors_witness :
    0 ≤ (calculateMonthlyResults zeroInputs 1 0 0).taxes ∧
    0 ≤ (calculateMonthlyResults zeroInputs 1 0 0).loanBalance :=
  projection_preserves_floors zeroInputs 1 (calculateMonthlyResults zeroInputs 1 0 0)
    (by simp [calculateAllResults, runMonths])

/-- C5: the monthly fixed-opex total and the breakeven's fixed-cost
total are the plain sum of the eight `FixedOpex` fields, with
`downtimeReserve` added at face value (never divided by 100, never
applied to a cost base). -/
theorem fixedOpex_plain_sum (inputs : CalculatorInputs) (month : ℕ) (pb pc : ℚ) :
    (calculateMonthlyResults inputs month pb pc).fixedOpex =
      inputs.fixedOpex.marketingBudget + inputs.fixedOpex.staffSalaryAllocation +
      inputs.fixedOpex.rentAllocation + inputs.fixedOpex.insurance +
      inputs.fixedOpex.softwareEMR + inputs.fixedOpex.maintenancePostWarranty +
      inputs.fixedOpex.calibrationService + inputs.fixedOpex.downtimeReserve ∧
    kpiBreakevenTreatmentsPerDay inputs =
      (inputs.fixedOpex.marketingBudget + inputs.fixedOpex.staffSalaryAllocation +
        inputs.fixedOpex.rentAllocation + inputs.fixedOpex.insurance +
        inputs.fixedOpex.softwareEMR + inputs.fixedOpex.maintenancePostWarranty +
        inputs.fixedOpex.calibrationService + inputs.fixedOpex.downtimeReserve +
        kpiMonthlyPayment inputs) / kpiGrossMarginPerTx inputs /
        inputs.utilization.openDaysPerMonth :=
  ⟨rfl, rfl⟩

/-- C6: monthly treatment volume formula with ramp saturation and
cyclic 12-month seasonality; the factors carry the stored
whole-number-percentage convention (each list entry divided by 100 at
the point of use), and the seasonality index used for month `m + 12` —
in particular month 13 versus month 1 — is the index used for month
`m`. -/
theorem treatments_ramp_seasonality (od tpd ns : ℚ) (m : ℕ) (ramp seas : List ℚ)
    (hm : 1 ≤ m) :
    calculateMonthlyTreatments od tpd ns m ramp seas =
      od * tpd * (1 - ns / 100) *
        (if m ≤ ramp.length then ramp.getD (m - 1) 0 / 100 else 1) *
        (seas.getD ((m - 1) % 12) 0 / 100) ∧
    seas.getD ((m + 12 - 1) % 12) 0 = seas.getD ((m - 1) % 12) 0 ∧
    seas.getD ((13 - 1) % 12) 0 = seas.getD ((1 - 1) % 12) 0 := by
  refine ⟨rfl, ?_, by norm_num⟩
  have h : (m + 12 - 1) % 12 = (m - 1) % 12 := by omega
  rw [h]

theorem treatments_ramp_seasonality_witness :
    calculateMonthlyTreatments 2 3 0 1 [50] [100] =
      2 * 3 * (1 - 0 / 100) *
        (if 1 ≤ ([(50 : ℚ)]).length then ([(50 : ℚ)]).getD (1 - 1) 0 / 100 else 1) *
        (([(100 : ℚ)]).getD ((1 - 1) % 12) 0 / 100) ∧
    ([(100 : ℚ)]).getD ((1 + 12 - 1) % 12) 0 = ([(100 : ℚ)]).getD ((1 - 1) % 12) 0 ∧
    ([(100 : ℚ)]).getD ((13 - 1) % 12) 0 = ([(100 : ℚ)]).getD ((1 - 1) % 12) 0 :=
  treatments_ramp_seasonality 2 3 0 1 [50] [100] le_rfl

/-- C10: monthly revenue decomposes as treatments times the
membership-free net price plus the constant membership term
`membershipMRR * (membershipPercent / 100)`; the membership term is
identical in every month, and the net price fed to the
payment-processing variable cost and to the breakeven gross margin is
the same membership-free net price. -/
theorem revenue_membership_term (inputs : CalculatorInputs) (month : ℕ) (pb pc : ℚ) :
    (calculateMonthlyResults inputs month pb pc).revenue =
      (calculateMonthlyResults inputs month pb pc).treatments *
        calculateNetPricePerTreatment inputs.pricing.listPricePerTreatment
          inputs.pricing.discountPercent inputs.pricing.upsellAvgPerTx
          inputs.pricing.upsellAttachRate +
      inputs.pricing.membershipMRR * (inputs.pricing.membershipPercent / 100) ∧
    (calculateMonthlyResults inputs month pb pc).variableCosts =
      (calculateMonthlyResults inputs month pb pc).treatments *
        calculateVariableCostPerTreatment inputs.variableCosts.consumables
          inputs.variableCosts.disposables inputs.variableCosts.clinicalTimeCost
          inputs.utilization.avgTreatmentTime inputs.variableCosts.roomTimeOverhead
          inputs.variableCosts.paymentProcessingPercent
          inputs.variableCosts.paymentProcessingFixed
          (calculateNetPricePerTreatment inputs.pricing.listPricePerTreatment
            inputs.pricing.discountPercent inputs.pricing.upsellAvgPerTx
            inputs.pricing.upsellAttachRate) ∧
    kpiGrossMarginPerTx inputs =
      calculateNetPricePerTreatment inputs.pricing.listPricePerTreatment
        inputs.pricing.discountPercent inputs.pricing.upsellAvgPerTx
        inputs.pricing.upsellAttachRate -
      calculateVariableCostPerTreatment inputs.variableCosts.consumables
        inputs.variableCosts.disposables inputs.variableCosts.clinicalTimeCost
        inputs.utilization.avgTreatmentTime inputs.variableCosts.roomTimeOverhead
        inputs.variableCosts.paymentProcessingPercent
        inputs.variableCosts.paymentProcessingFixed
        (calculateNetPricePerTreatment inputs.pricing.listPricePerTreatment
          inputs.pricing.discountPercent inputs.pricing.upsellAvgPerTx
          inputs.pricing.upsellAttachRate) ∧
    ∀ (month' : ℕ) (pb' pc' : ℚ),
      (calculateMonthlyResults inputs month pb pc).revenue -
        (calculateMonthlyResults inputs month pb pc).treatments *
          calculateNetPricePerTreatment inputs.pricing.listPricePerTreatment
            inputs.pricing.discountPercent inputs.pricing.upsellAvgPerTx
            inputs.pricing.upsellAttachRate =
      (calculateMonthlyResults inputs month' pb' pc').revenue -
        (calculateMonthlyResults inputs month' pb' pc').treatments *
          calculateNetPricePerTreatment inputs.pricing.listPricePerTreatment
            inputs.pricing.discountPercent inputs.pricing.upsellAvgPerTx
            inputs.pricing.upsellAttachRate := by
  refine ⟨rfl, rfl, rfl, ?_⟩
  intro month' pb' pc'
  simp only [calculateMonthlyResults]
  ring

lemma runMonths_balance_passthrough (inputs : CalculatorInputs)
    (hpm : inputs.financing.purchaseMethod ≠ PurchaseMethod.loan) :
    ∀ (k month : ℕ) (pb pc : ℚ),
      ∀ x ∈ runMonths inputs month k pb pc, x.loanBalance = pb := by
  intro k
  induction k with
  | zero => intro month pb pc x hx; simp [runMonths] at hx
  | succ n ih =>
    intro month pb pc x hx
    rw [runMonths] at hx
    have hhead : (calculateMonthlyResults inputs month pb pc).loanBalance = pb := by
      simp only [calculateMonthlyResults]
      rw [if_neg hpm]
    rcases List.mem_cons.1 hx with h | h
    · subst h; exact hhead
    · have := ih (month + 1) (calculateMonthlyResults inputs month pb pc).loanBalance
        (calculateMonthlyResults inputs month pb pc).cumulativeCash x h
      rw [this, hhead]

/-- C9: for the lease-fmv, lease-capital and promo-0 purchase methods
the monthly step performs no financing or acquisition accounting:
interest is 0, the loan balance passes through unchanged (hence stays 0
for the whole driver output), and in every month — month 1 included —
cash flow is exactly `ebitda - taxes`. -/
theorem lease_methods_no_financing (inputs : CalculatorInputs)
    (hpm : inputs.financing.purchaseMethod = PurchaseMethod.leaseFMV ∨
      inputs.financing.purchaseMethod = PurchaseMethod.leaseCapital ∨
      inputs.financing.purchaseMethod = PurchaseMethod.promo0) :
    (∀ (month : ℕ) (pb pc : ℚ),
      (calculateMonthlyResults inputs month pb pc).interest = 0 ∧
      (calculateMonthlyResults inputs month pb pc).loanBalance = pb ∧
      (calculateMonthlyResults inputs month pb pc).cashFlow =
        (calculateMonthlyResults inputs month pb pc).ebitda -
          (calculateMonthlyResults inputs month pb pc).taxes) ∧
    ∀ (months : ℕ), ∀ x ∈ calculateAllResults inputs months, x.loanBalance = 0 := by
  have hloan : inputs.financing.purchaseMethod ≠ PurchaseMethod.loan := by
    rcases hpm with h | h | h <;> rw [h] <;> intro hc <;> cases hc
  have hcash : inputs.financing.purchaseMethod ≠ PurchaseMethod.cash := by
    rcases hpm with h | h | h <;> rw [h] <;> intro hc <;> cases hc
  refine ⟨fun month pb pc => ?_,
    fun months => runMonths_balance_passthrough inputs hloan months 1 0 0⟩
  simp only [calculateMonthlyResults, if_neg hloan, if_neg hcash, ite_self]
  exact ⟨trivial, trivial, trivial⟩

theorem lease_methods_no_financing_witness :
    (∀ (month : ℕ) (pb pc : ℚ),
      (calculateMonthlyResults leaseFmvInputs month pb pc).interest = 0 ∧
      (calculateMonthlyResults leaseFmvInputs month pb pc).loanBalance = pb ∧
      (calculateMonthlyResults leaseFmvInputs month pb pc).cashFlow =
        (calculateMonthlyResults leaseFmvInputs month pb pc).ebitda -
          (calculateMonthlyResults leaseFmvInputs month pb pc).taxes) ∧
    ∀ (months : ℕ), ∀ x ∈ calculateAllResults leaseFmvInputs months, x.loanBalance = 0 :=
  lease_methods_no_financing leaseFmvInputs (Or.inl rfl)

/-- C1: at the `loanAprTwelveInputs` fixture (stored APR `12`, meaning
12% under the data model's percentage convention, principal 1200) the
code's month-1 interest is `1200` — the carried balance times
`apr / 12` with the stored whole-number APR used raw — while the
percentage convention prescribes `1200 * ((12/100)/12) = 12`; the fixed
payment likewise uses the raw rate `apr / 12`, and differs from PMT
computed with the converted rate `(apr/100)/12`. -/
theorem loan_interest_uses_unconverted_apr :
    (calculateMonthlyResults loanAprTwelveInputs 1 0 0).interest = 1200 ∧
    loanPrincipal loanAprTwelveInputs *
      ((loanAprTwelveInputs.financing.apr / 100) / 12) = 12 ∧
    (calculateMonthlyResults loanAprTwelveInputs 1 0 0).interest ≠
      loanPrincipal loanAprTwelveInputs *
        ((loanAprTwelveInputs.financing.apr / 100) / 12) ∧
    calculatePMT loanAprTwelveInputs.financing.apr
        loanAprTwelveInputs.financing.termMonths (loanPrincipal loanAprTwelveInputs) ≠
      calculatePMT (loanAprTwelveInputs.financing.apr / 100)
        loanAprTwelveInputs.financing.termMonths (loanPrincipal loanAprTwelveInputs) := by
  refine ⟨?_, ?_, ?_, ?_⟩
  · norm_num [calculateMonthlyResults, loanAprTwelveInputs, zeroInputs, loanPrincipal,
      totalAcquisitionCost, calculatePMT]
  · norm_num [loanAprTwelveInputs, zeroInputs, loanPrincipal, totalAcquisitionCost]
  · norm_num [calculateMonthlyResults, loanAprTwelveInputs, zeroInputs, loanPrincipal,
      totalAcquisitionCost, calculatePMT]
  · norm_num [calculatePMT, loanAprTwelveInputs, zeroInputs, loanPrincipal,
      totalAcquisitionCost]

lemma findIndexOpt_some_spec (p : MonthlyResults → Bool) :
    ∀ (l : List MonthlyResults) (i : ℕ), findIndexOpt p l = some i →
      i < l.length ∧ p (l.getD i default) = true ∧
        ∀ j, j < i → p (l.getD j default) = false := by
  intro l
  induction l with
  | nil => intro i h; simp [findIndexOpt] at h
  | cons x xs ih =>
    intro i h
    rw [findIndexOpt] at h
    by_cases hx : p x
    · rw [if_pos hx] at h
      cases h
      exact ⟨by simp, by simpa using hx, fun j hj => absurd hj (Nat.not_lt_zero j)⟩
    · rw [if_neg hx] at h
      rcases Option.map_eq_some'.1 h with ⟨i', hi', rfl⟩
      obtain ⟨hlen, hp, hprev⟩ := ih i' hi'
      refine ⟨by simpa using hlen, by simpa using hp, ?_⟩
      intro j hj
      match j with
      | 0 => simpa using hx
      | j' + 1 =>
        have : j' < i' := by omega
        simpa using hprev j' this

lemma findIndexOpt_none_spec (p : MonthlyResults → Bool) :
    ∀ l : List MonthlyResults, findIndexOpt p l = none →
      ∀ j, j < l.length → p (l.getD j default) = false := by
  intro l
  induction l with
  | nil => intro _ j hj; simp at hj
  | cons x xs ih =>
    intro h j hj
    rw [findIndexOpt] at h
    by_cases hx : p x
    · rw [if_pos hx] at h; cases h
    · rw [if_neg hx] at h
      match j with
      | 0 => simpa using hx
      | j' + 1 =>
        have hxs : findIndexOpt p xs = none := by
          cases hfi : findIndexOpt p xs
          · rfl
          · rw [hfi] at h; simp at h
        have : j' < xs.length := by simpa using hj
        simpa using ih hxs j' this

/-- C4: for a non-empty monthly sequence, `paybackMonths` is the
1-based index of the first month with non-negative cumulative cash when
one exists, and the sequence length otherwise; it is always a number
`k` with `1 ≤ k ≤ length`. -/
theorem payback_first_nonneg_month (rs : List MonthlyResults) (hne : rs ≠ []) :
    ∃ k : ℕ, kpiPaybackMonths rs = (k : ℤ) ∧ 1 ≤ k ∧ k ≤ rs.length ∧
      ((0 ≤ (rs.getD (k - 1) default).cumulativeCash ∧
          ∀ j, j < k - 1 → ¬ 0 ≤ (rs.getD j default).cumulativeCash) ∨
        (k = rs.length ∧
          ∀ j, j < rs.length → ¬ 0 ≤ (rs.getD j default).cumulativeCash)) := by
  have hlen : 0 < rs.length := List.length_pos.2 hne
  cases hfi : findIndexOpt (fun r => decide (0 ≤ r.cumulativeCash)) rs with
  | some i =>
    obtain ⟨hilen, hp, hprev⟩ := findIndexOpt_some_spec _ rs i hfi
    refine ⟨i + 1, ?_, by omega, by omega, Or.inl ⟨?_, ?_⟩⟩
    · simp only [kpiPaybackMonths, hfi]
      rw [if_pos (by omega)]
      push_cast
      ring
    · simpa using of_decide_eq_true hp
    · intro j hj
      have := hprev j (by omega)
      simpa using of_decide_eq_false this
  | none =>
    have hall := findIndexOpt_none_spec _ rs hfi
    refine ⟨rs.length, ?_, by omega, le_rfl, Or.inr ⟨rfl, ?_⟩⟩
    · simp only [kpiPaybackMonths, hfi]
      norm_num
    · intro j hj
      simpa using of_decide_eq_false (hall j hj)

theorem payback_first_nonneg_month_witness :
    ∃ k : ℕ, kpiPaybackMonths [negativeResult, sampleResult] = (k : ℤ) ∧ 1 ≤ k ∧
      k ≤ ([negativeResult, sampleResult]).length ∧
      ((0 ≤ (([negativeResult, sampleResult]).getD (k - 1) default).cumulativeCash ∧
          ∀ j, j < k - 1 →
            ¬ 0 ≤ (([negativeResult, sampleResult]).getD j default).cumulativeCash) ∨
        (k = ([negativeResult, sampleResult]).length ∧
          ∀ j, j < ([negativeResult, sampleResult]).length →
            ¬ 0 ≤ (([negativeResult, sampleResult]).getD j default).cumulativeCash)) :=
  payback_first_nonneg_month [negativeResult, sampleResult] (by simp)

lemma pow_sub_one_lt_mul (r : ℚ) (hr : 0 < r) :
    ∀ n : ℕ, 1 ≤ n → (1 + r) ^ n - 1 < n * r * (1 + r) ^ n := by
  intro n
  induction n with
  | zero => intro h; omega
  | succ m ih =>
    intro _
    by_cases hm : 1 ≤ m
    · have key := ih hm
      have hpow : (1 + r) ^ (m + 1) = (1 + r) ^ m * (1 + r) := pow_succ (1 + r) m
      have hone : (1 : ℚ) ≤ (1 + r) ^ (m + 1) := one_le_pow₀ (by linarith)
      have hone' : (1 : ℚ) ≤ (1 + r) ^ m * (1 + r) := by rw [← hpow]; exact hone
      have hr' : r * 1 ≤ r * ((1 + r) ^ m * (1 + r)) :=
        mul_le_mul_of_nonneg_left hone' (le_of_lt hr)
      have hmul := mul_lt_mul_of_pos_right key (show (0:ℚ) < 1 + r by linarith)
      push_cast
      rw [hpow]
      nlinarith [hmul, hr']
    · have hm0 : m = 0 := by omega
      subst hm0
      have h1 : (1 + r) ^ (0 + 1) = 1 + r := by ring
      rw [h1]
      push_cast
      nlinarith [mul_pos hr hr]

/-- C8 (counterexample): with rate `12 > 0` and term `1 > 0` but
principal `0`, the total paid equals the principal instead of
exceeding it, so the claim's unrestricted quantification over the
principal fails. -/
theorem pmt_total_fails_at_zero_principal :
    calculatePMT 12 1 0 * ((1 : ℕ) : ℚ) = 0 ∧
      ¬ (0 : ℚ) < calculatePMT 12 1 0 * ((1 : ℕ) : ℚ) := by
  norm_num [calculatePMT]

/-- C8 (amended): for positive rate, term and principal the total paid
strictly exceeds the principal, and at rate zero the payment is the
straight division `P / n`. -/
theorem pmt_properties (apr : ℚ) (n : ℕ) (P : ℚ) :
    (0 < apr → 0 < n → 0 < P → P < calculatePMT apr n P * n) ∧
    (0 < n → calculatePMT 0 n P = P / n) := by
  constructor
  · intro hapr hn hP
    have hr : (0 : ℚ) < apr / 12 := by positivity
    have hrne : ¬ apr / 12 = (0 : ℚ) := ne_of_gt hr
    simp only [calculatePMT, if_neg hrne]
    rw [zpow_neg, zpow_natCast]
    have ha1 : (1 : ℚ) < 1 + apr / 12 := by linarith
    have hA : (1 : ℚ) < (1 + apr / 12) ^ n := one_lt_pow₀ ha1 (by omega : n ≠ 0)
    have hApos : (0 : ℚ) < (1 + apr / 12) ^ n := by positivity
    have hD : (0 : ℚ) < 1 - ((1 + apr / 12) ^ n)⁻¹ := by
      rw [sub_pos]
      exact inv_lt_one_of_one_lt₀ hA
    have key := pow_sub_one_lt_mul (apr / 12) hr n hn
    rw [div_mul_eq_mul_div, lt_div_iff₀ hD]
    have hinv : 1 - ((1 + apr / 12) ^ n)⁻¹ =
        ((1 + apr / 12) ^ n - 1) / (1 + apr / 12) ^ n := by
      field_simp
    rw [hinv, mul_div_assoc', div_lt_iff₀ hApos]
    nlinarith [mul_lt_mul_of_pos_left key hP]
  · intro hn
    norm_num [calculatePMT]

theorem pmt_properties_witness :
    (1 : ℚ) < calculatePMT 12 1 1 * ((1 : ℕ) : ℚ) ∧
      calculatePMT 0 2 100 = 100 / ((2 : ℕ) : ℚ) :=
  ⟨(pmt_properties 12 1 1).1 (by norm_num) (by norm_num) (by norm_num),
   (pmt_properties 0 2 100).2 (by norm_num)⟩

lemma npvAux_eq_sum (d : ℝ) :
    ∀ (rs : List MonthlyResults) (k : ℕ),
      npvAux d rs k =
        ∑ i in Finset.range rs.length,
          ((rs.getD i default).cashFlow : ℝ) / (1 + d) ^ (((k + i : ℕ) : ℝ) / 12) := by
  intro rs
  induction rs with
  | nil => intro k; simp [npvAux]
  | cons x xs ih =>
    intro k
    rw [npvAux, ih (k + 1), List.length_cons, Finset.sum_range_succ', add_comm]
    congr 1
    · apply Finset.sum_congr rfl
      intro i _
      rw [List.getD_cons_succ]
      have h : k + 1 + i = k + (i + 1) := by omega
      rw [h]

/-- C2 (counterexample): on the one-month sequence `[sampleResult]`
(cash flow 12) the aggregator's npv equals 12 — the month-1 cash flow
is left undiscounted (exponent `0/12`) — and therefore differs from
the claimed value `12 / 1.10 ^ (1/12)`, which is strictly below 12. -/
theorem npv_month_one_undiscounted :
    kpiNpv [sampleResult] ≠
      (sampleResult.cashFlow : ℝ) / (1 + 0.10) ^ ((1 : ℝ) / 12) := by
  have h0 : kpiNpv [sampleResult] = 12 := by
    rw [kpiNpv, npvAux, npvAux]
    norm_num [sampleResult]
  have h1 : (1 : ℝ) < (1 + 0.10) ^ ((1 : ℝ) / 12) :=
    (Real.one_lt_rpow_iff_of_pos (by norm_num)).2 (Or.inl ⟨by norm_num, by norm_num⟩)
  have hpos : (0 : ℝ) < (1 + 0.10) ^ ((1 : ℝ) / 12) := lt_trans zero_lt_one h1
  have hcf : (sampleResult.cashFlow : ℝ) = 12 := by norm_num [sampleResult]
  rw [h0, hcf]
  intro heq
  rw [eq_div_iff (ne_of_gt hpos)] at heq
  nlinarith [h1]

/-- C2 (amended): the npv is the sum over the monthly sequence of each
month's cash flow discounted at 10% annually with the 0-based month
index over 12 as exponent — so month 1 is left undiscounted — with no
separate subtraction of initial capex. -/
theorem npv_zero_based_discounting (rs : List MonthlyResults) :
    kpiNpv rs =
      ∑ i in Finset.range rs.length,
        ((rs.getD i default).cashFlow : ℝ) / (1 + 0.10) ^ ((i : ℝ) / 12) := by
  rw [kpiNpv, npvAux_eq_sum]
  apply Finset.sum_congr rfl
  intro i _
  norm_num

lemma loanIter_eq_of_closed (r pmt P : ℚ) (n : ℕ) (B : ℕ → ℚ)
    (hB0 : B 0 = P)
    (hstep : ∀ m, m < n → B (m + 1) = B m - (pmt - B m * r))
    (hnn : ∀ m, m ≤ n → 0 ≤ B m) :
    ∀ m, m ≤ n → loanIter r pmt P m = B m := by
  intro m
  induction m with
  | zero => intro _; exact hB0.symm
  | succ j ih =>
    intro hj
    have hjn : j < n := by omega
    rw [loanIter, ih (by omega), loanStep, ← hstep j hjn]
    exact max_eq_right (hnn (j + 1) hj)

lemma loanIter_zero_stable (r pmt P : ℚ) (hpmt : 0 ≤ pmt) (n : ℕ)
    (hz : loanIter r pmt P n = 0) : ∀ m, n ≤ m → loanIter r pmt P m = 0 := by
  intro m
  induction m with
  | zero =>
    intro h
    have hn : n = 0 := by omega
    exact hn ▸ hz
  | succ j ih =>
    intro hj
    rcases Nat.lt_or_ge j n with h | h
    · have : n = j + 1 := by omega
      exact this ▸ hz
    · have hstep0 : (0 : ℚ) - (pmt - 0 * r) = -pmt := by ring
      rw [loanIter, ih h, loanStep, hstep0]
      exact max_eq_left (by linarith)

lemma loanStep_le_self (r pmt b P : ℚ) (hr : 0 ≤ r) (hb0 : 0 ≤ b) (hbP : b ≤ P)
    (hrP : P * r ≤ pmt) : loanStep r pmt b ≤ b := by
  rw [loanStep]
  apply max_le hb0
  have : b * r ≤ P * r := mul_le_mul_of_nonneg_right hbP hr
  linarith

lemma loanIter_package (r pmt P : ℚ) (n : ℕ)
    (hr : 0 ≤ r) (hP : 0 ≤ P) (hpmt : 0 ≤ pmt) (hrP : P * r ≤ pmt)
    (B : ℕ → ℚ) (hB0 : B 0 = P)
    (hstep : ∀ m, m < n → B (m + 1) = B m - (pmt - B m * r))
    (hnn : ∀ m, m ≤ n → 0 ≤ B m)
    (hle : ∀ m, m ≤ n → B m ≤ P)
    (hBn : B n = 0) :
    (∀ m, n ≤ m → loanIter r pmt P m = 0) ∧
    (∀ m, loanIter r pmt P (m + 1) ≤ loanIter r pmt P m) ∧
    (∀ m, m < n →
      pmt - loanIter r pmt P m * r = loanIter r pmt P m - loanIter r pmt P (m + 1)) := by
  have heq := loanIter_eq_of_closed r pmt P n B hB0 hstep hnn
  have hzn : loanIter r pmt P n = 0 := by rw [heq n le_rfl]; exact hBn
  have hstable := loanIter_zero_stable r pmt P hpmt n hzn
  have hbounds : ∀ m, 0 ≤ loanIter r pmt P m ∧ loanIter r pmt P m ≤ P := by
    intro m
    rcases le_or_lt m n with h | h
    · rw [heq m h]; exact ⟨hnn m h, hle m h⟩
    · rw [hstable m h.le]; exact ⟨le_rfl, hP⟩
  refine ⟨hstable, ?_, ?_⟩
  · intro m
    rw [loanIter]
    exact loanStep_le_self r pmt _ P hr (hbounds m).1 (hbounds m).2 hrP
  · intro m hm
    rw [heq m hm.le, heq (m + 1) hm, hstep m hm]
    ring

lemma loanIter_shift (r pmt b : ℚ) :
    ∀ m, loanIter r pmt (loanStep r pmt b) m = loanIter r pmt b (m + 1) := by
  intro m
  induction m with
  | zero => rfl
  | succ j ih => rw [loanIter, ih]; rfl

lemma range_map_sum_telescope (g : ℕ → ℚ) :
    ∀ n : ℕ, ((List.range n).map (fun i => g i - g (i + 1))).sum = g 0 - g n := by
  intro n
  induction n with
  | zero => simp
  | succ j ih =>
    rw [List.range_succ, List.map_append, List.sum_append, ih]
    simp

lemma calculatePMT_of_ne (apr : ℚ) (n : ℕ) (P : ℚ) (h : apr ≠ 0) :
    calculatePMT apr n P = (apr / 12 * P) / (1 - (1 + apr / 12) ^ (-(n : ℤ))) := by
  have h12 : ¬ apr / 12 = (0 : ℚ) := by
    simp only [div_eq_zero_iff]
    push_neg
    exact ⟨h, by norm_num⟩
  simp only [calculatePMT, if_neg h12]

lemma runMonths_length (inputs : CalculatorInputs) :
    ∀ (k month : ℕ) (pb pc : ℚ), (runMonths inputs month k pb pc).length = k := by
  intro k
  induction k with
  | zero => intro month pb pc; rfl
  | succ j ih => intro month pb pc; rw [runMonths, List.length_cons, ih]

lemma cMR_loan_first (inputs : CalculatorInputs)
    (hpm : inputs.financing.purchaseMethod = PurchaseMethod.loan) (pb pc : ℚ) :
    (calculateMonthlyResults inputs 1 pb pc).interest =
      loanPrincipal inputs * (inputs.financing.apr / 12) ∧
    (calculateMonthlyResults inputs 1 pb pc).loanBalance =
      loanStep (inputs.financing.apr / 12)
        (calculatePMT inputs.financing.apr inputs.financing.termMonths (loanPrincipal inputs))
        (loanPrincipal inputs) := by
  constructor <;> simp [calculateMonthlyResults, loanStep, hpm]

lemma cMR_loan_later (inputs : CalculatorInputs)
    (hpm : inputs.financing.purchaseMethod = PurchaseMethod.loan)
    (month : ℕ) (hm : month ≠ 1) (pb pc : ℚ) :
    (calculateMonthlyResults inputs month pb pc).interest =
      pb * (inputs.financing.apr / 12) ∧
    (calculateMonthlyResults inputs month pb pc).loanBalance =
      loanStep (inputs.financing.apr / 12)
        (calculatePMT inputs.financing.apr inputs.financing.termMonths (loanPrincipal inputs))
        pb := by
  constructor <;> simp [calculateMonthlyResults, loanStep, hpm, hm]

lemma runMonths_loan_map (inputs : CalculatorInputs)
    (hpm : inputs.financing.purchaseMethod = PurchaseMethod.loan) :
    ∀ (k month : ℕ), 2 ≤ month → ∀ (pb pc : ℚ),
      (runMonths inputs month k pb pc).map (fun x => (x.interest, x.loanBalance)) =
        (List.range k).map (fun i =>
          (loanIter (inputs.financing.apr / 12)
              (calculatePMT inputs.financing.apr inputs.financing.termMonths
                (loanPrincipal inputs)) pb i * (inputs.financing.apr / 12),
            loanIter (inputs.financing.apr / 12)
              (calculatePMT inputs.financing.apr inputs.financing.termMonths
                (loanPrincipal inputs)) pb (i + 1))) := by
  intro k
  induction k with
  | zero => intro month hm pb pc; rfl
  | succ j ih =>
    intro month hm pb pc
    have hm1 : month ≠ 1 := by omega
    have hint := (cMR_loan_later inputs hpm month hm1 pb pc).1
    have hbal := (cMR_loan_later inputs hpm month hm1 pb pc).2
    rw [runMonths, List.map_cons, ih (month + 1) (by omega), List.range_succ_eq_map,
      List.map_cons, List.map_map]
    congr 1
    · rw [hint, hbal]
      rfl
    · simp only [hbal]
      apply List.map_congr_left
      intro i _
      simp only [Function.comp]
      rw [loanIter_shift, loanIter_shift]

lemma calculateAllResults_loan_map (inputs : CalculatorInputs)
    (hpm : inputs.financing.purchaseMethod = PurchaseMethod.loan)
    (horizon : ℕ) (hh : 1 ≤ horizon) :
    (calculateAllResults inputs horizon).map (fun x => (x.interest, x.loanBalance)) =
      (List.range horizon).map (fun i =>
        (loanIter (inputs.financing.apr / 12)
            (calculatePMT inputs.financing.apr inputs.financing.termMonths
              (loanPrincipal inputs)) (loanPrincipal inputs) i *
            (inputs.financing.apr / 12),
          loanIter (inputs.financing.apr / 12)
            (calculatePMT inputs.financing.apr inputs.financing.termMonths
              (loanPrincipal inputs)) (loanPrincipal inputs) (i + 1))) := by
  obtain ⟨t, rfl⟩ : ∃ t, horizon = t + 1 := ⟨horizon - 1, by omega⟩
  have hint := (cMR_loan_first inputs hpm 0 0).1
  have hbal := (cMR_loan_first inputs hpm 0 0).2
  rw [calculateAllResults, runMonths, List.map_cons,
    runMonths_loan_map inputs hpm t 2 (by omega), List.range_succ_eq_map,
    List.map_cons, List.map_map]
  congr 1
  · rw [hint, hbal]
    rfl
  · simp only [hbal]
    apply List.map_congr_left
    intro i _
    simp only [Function.comp]
    rw [loanIter_shift, loanIter_shift]

lemma calculateAllResults_length (inputs : CalculatorInputs) (months : ℕ) :
    (calculateAllResults inputs months).length = months :=
  runMonths_length inputs months 1 0 0

lemma calculateAllResults_loan_fields (inputs : CalculatorInputs)
    (hpm : inputs.financing.purchaseMethod = PurchaseMethod.loan)
    (horizon : ℕ) (hh : 1 ≤ horizon) :
    ∀ (i : ℕ) (hi : i < (calculateAllResults inputs horizon).length),
      ((calculateAllResults inputs horizon).get ⟨i, hi⟩).interest =
        loanIter (inputs.financing.apr / 12)
          (calculatePMT inputs.financing.apr inputs.financing.termMonths
            (loanPrincipal inputs)) (loanPrincipal inputs) i *
          (inputs.financing.apr / 12) ∧
      ((calculateAllResults inputs horizon).get ⟨i, hi⟩).loanBalance =
        loanIter (inputs.financing.apr / 12)
          (calculatePMT inputs.financing.apr inputs.financing.termMonths
            (loanPrincipal inputs)) (loanPrincipal inputs) (i + 1) := by
  intro i hi
  have hlen : (calculateAllResults inputs horizon).length = horizon :=
    calculateAllResults_length inputs horizon
  have hih : i < horizon := hlen ▸ hi
  have hmap := calculateAllResults_loan_map inputs hpm horizon hh
  have hq := congrArg (fun l => l[i]?) hmap
  simp only [List.getElem?_map] at hq
  rw [List.getElem?_eq_getElem hi, List.getElem?_eq_getElem
    (by simpa using hih : i < (List.range horizon).length)] at hq
  simp only [Option.map_some', List.getElem_range, Option.some.injEq, Prod.mk.injEq,
    List.get_eq_getElem] at hq ⊢
  exact hq

lemma amortB_step (r P : ℚ) (n m : ℕ) (hA : (1 + r) ^ n - 1 ≠ 0) :
    P * ((1 + r) ^ n - (1 + r) ^ (m + 1)) / ((1 + r) ^ n - 1) =
      P * ((1 + r) ^ n - (1 + r) ^ m) / ((1 + r) ^ n - 1) -
      (r * P * (1 + r) ^ n / ((1 + r) ^ n - 1) -
        P * ((1 + r) ^ n - (1 + r) ^ m) / ((1 + r) ^ n - 1) * r) := by
  field_simp
  ring

lemma loanIter_key (apr : ℚ) (n : ℕ) (P : ℚ)
    (hapr : 0 ≤ apr) (hP : 0 < P) (hn : 1 ≤ n) :
    (∀ m, n ≤ m → loanIter (apr / 12) (calculatePMT apr n P) P m = 0) ∧
    (∀ m, loanIter (apr / 12) (calculatePMT apr n P) P (m + 1) ≤
      loanIter (apr / 12) (calculatePMT apr n P) P m) ∧
    (∀ m, m < n → calculatePMT apr n P -
        loanIter (apr / 12) (calculatePMT apr n P) P m * (apr / 12) =
      loanIter (apr / 12) (calculatePMT apr n P) P m -
        loanIter (apr / 12) (calculatePMT apr n P) P (m + 1)) := by
  have hnq : (0 : ℚ) < (n : ℚ) := by
    have : 0 < n := hn
    exact_mod_cast this
  rcases eq_or_lt_of_le hapr with h0 | hpos
  · -- apr = 0
    have hapr0 : apr = 0 := h0.symm
    subst hapr0
    have hr0 : (0 : ℚ) / 12 = 0 := by norm_num
    have hpmt : calculatePMT 0 n P = P / n := by norm_num [calculatePMT]
    rw [hr0, hpmt]
    refine loanIter_package 0 (P / n) P n le_rfl hP.le (by positivity) (by simpa using by positivity)
      (fun m => P - (m : ℚ) * (P / n)) (by simp) ?_ ?_ ?_ ?_
    · intro m _
      push_cast
      ring
    · intro m hm
      have hm' : (m : ℚ) ≤ (n : ℚ) := by exact_mod_cast hm
      have h1 : (m : ℚ) * (P / n) ≤ (n : ℚ) * (P / n) :=
        mul_le_mul_of_nonneg_right hm' (by positivity)
      have h2 : (n : ℚ) * (P / n) = P := by field_simp
      linarith
    · intro m _
      have : (0 : ℚ) ≤ (m : ℚ) * (P / n) := by positivity
      linarith
    · field_simp
  · -- apr > 0
    have hr : (0 : ℚ) < apr / 12 := by positivity
    have ha1 : (1 : ℚ) < 1 + apr / 12 := by linarith
    have hA1 : (1 : ℚ) < (1 + apr / 12) ^ n := one_lt_pow₀ ha1 (by omega)
    have hAs : (0 : ℚ) < (1 + apr / 12) ^ n - 1 := by linarith
    have hpmtEq : calculatePMT apr n P =
        apr / 12 * P * (1 + apr / 12) ^ n / ((1 + apr / 12) ^ n - 1) := by
      rw [calculatePMT_of_ne apr n P (by linarith), zpow_neg, zpow_natCast]
      have hinv : (1 : ℚ) - ((1 + apr / 12) ^ n)⁻¹ =
          ((1 + apr / 12) ^ n - 1) / (1 + apr / 12) ^ n := by
        field_simp
      rw [hinv, div_div_eq_mul_div]
    refine loanIter_package (apr / 12) (calculatePMT apr n P) P n hr.le hP.le ?_ ?_
      (fun m => P * ((1 + apr / 12) ^ n - (1 + apr / 12) ^ m) / ((1 + apr / 12) ^ n - 1))
      ?_ ?_ ?_ ?_ ?_
    · rw [hpmtEq]
      exact div_nonneg (by positivity) (by linarith)
    · rw [hpmtEq, le_div_iff₀ hAs]
      nlinarith [mul_pos hP hr]
    · simp only [pow_zero]
      rw [mul_div_assoc, div_self (ne_of_gt hAs), mul_one]
    · intro m _
      simp only
      rw [hpmtEq]
      exact amortB_step (apr / 12) P n m (ne_of_gt hAs)
    · intro m hm
      apply div_nonneg _ (by linarith)
      apply mul_nonneg hP.le
      have := pow_le_pow_right₀ (le_of_lt ha1) hm
      linarith
    · intro m hm
      rw [div_le_iff₀ hAs]
      have h1m : (1 : ℚ) ≤ (1 + apr / 12) ^ m := one_le_pow₀ (by linarith)
      nlinarith [mul_le_mul_of_nonneg_left
        (show (1 + apr / 12) ^ n - (1 + apr / 12) ^ m ≤ (1 + apr / 12) ^ n - 1 by linarith) hP.le]
    · simp

/-- C3: for a term-loan run with positive principal, non-negative
stored APR, and horizon at least the term, the driver's loan-balance
sequence is monotonically non-increasing, the principal portions
(payment minus interest) over the term sum to the original principal
(exactly, in the exact-rational model of the code's arithmetic), and
the balance is exactly 0 from the end of the term onward. -/
theorem loan_amortization_exact (inputs : CalculatorInputs) (horizon : ℕ)
    (hpm : inputs.financing.purchaseMethod = PurchaseMethod.loan)
    (hP : 0 < loanPrincipal inputs)
    (hapr : 0 ≤ inputs.financing.apr)
    (hterm : 1 ≤ inputs.financing.termMonths)
    (hhor : inputs.financing.termMonths ≤ horizon) :
    List.Chain' (fun a b => b.loanBalance ≤ a.loanBalance)
      (calculateAllResults inputs horizon) ∧
    (((calculateAllResults inputs horizon).take inputs.financing.termMonths).map
      (fun x => calculatePMT inputs.financing.apr inputs.financing.termMonths
        (loanPrincipal inputs) - x.interest)).sum = loanPrincipal inputs ∧
    ∀ (i : ℕ) (hi : i < (calculateAllResults inputs horizon).length),
      inputs.financing.termMonths ≤ i + 1 →
      ((calculateAllResults inputs horizon).get ⟨i, hi⟩).loanBalance = 0 := by
  obtain ⟨hzero, hmono, htel⟩ := loanIter_key inputs.financing.apr
    inputs.financing.termMonths (loanPrincipal inputs) hapr hP hterm
  have hh : 1 ≤ horizon := le_trans hterm hhor
  have hfields := calculateAllResults_loan_fields inputs hpm horizon hh
  have hlen := calculateAllResults_length inputs horizon
  refine ⟨?_, ?_, ?_⟩
  · rw [List.chain'_iff_get]
    intro i hilt
    have hi1 : i < (calculateAllResults inputs horizon).length := by omega
    have hi2 : i + 1 < (calculateAllResults inputs horizon).length := by omega
    rw [(hfields i hi1).2, (hfields (i + 1) hi2).2]
    exact hmono (i + 1)
  · have hmapeq : ((calculateAllResults inputs horizon).take
        inputs.financing.termMonths).map
          (fun x => calculatePMT inputs.financing.apr inputs.financing.termMonths
            (loanPrincipal inputs) - x.interest) =
        (List.range inputs.financing.termMonths).map
          (fun i => loanIter (inputs.financing.apr / 12)
              (calculatePMT inputs.financing.apr inputs.financing.termMonths
                (loanPrincipal inputs)) (loanPrincipal inputs) i -
            loanIter (inputs.financing.apr / 12)
              (calculatePMT inputs.financing.apr inputs.financing.termMonths
                (loanPrincipal inputs)) (loanPrincipal inputs) (i + 1)) := by
      apply List.ext_get
      · simp [hlen]
        omega
      · intro i h1 h2
        have hin : i < inputs.financing.termMonths := by
          simpa using h2
        have hiL : i < (calculateAllResults inputs horizon).length := by
          omega
        have hgetTake : (((calculateAllResults inputs horizon).take
            inputs.financing.termMonths).map
              (fun x => calculatePMT inputs.financing.apr inputs.financing.termMonths
                (loanPrincipal inputs) - x.interest)).get ⟨i, h1⟩ =
            calculatePMT inputs.financing.apr inputs.financing.termMonths
              (loanPrincipal inputs) -
              ((calculateAllResults inputs horizon).get ⟨i, hiL⟩).interest := by
          simp [List.get_eq_getElem, List.getElem_take]
        rw [hgetTake, (hfields i hiL).1]
        simp only [List.get_eq_getElem, List.getElem_map, List.getElem_range]
        exact htel i hin
    rw [hmapeq, range_map_sum_telescope, hzero inputs.financing.termMonths le_rfl]
    simp [loanIter]
  · intro i hi hterm_le
    rw [(hfields i hi).2]
    exact hzero (i + 1) hterm_le

theorem loan_amortization_exact_witness :
    List.Chain' (fun a b => b.loanBalance ≤ a.loanBalance)
      (calculateAllResults loanZeroAprInputs 2) ∧
    (((calculateAllResults loanZeroAprInputs 2).take
        loanZeroAprInputs.financing.termMonths).map
      (fun x => calculatePMT loanZeroAprInputs.financing.apr
        loanZeroAprInputs.financing.termMonths
        (loanPrincipal loanZeroAprInputs) - x.interest)).sum =
      loanPrincipal loanZeroAprInputs ∧
    ∀ (i : ℕ) (hi : i < (calculateAllResults loanZeroAprInputs 2).length),
      loanZeroAprInputs.financing.termMonths ≤ i + 1 →
      ((calculateAllResults loanZeroAprInputs 2).get ⟨i, hi⟩).loanBalance = 0 :=
  loan_amortization_exact loanZeroAprInputs 2 rfl
    (by norm_num [loanPrincipal, totalAcquisitionCost, loanZeroAprInputs, zeroInputs])
    le_rfl (by norm_num [loanZeroAprInputs, zeroInputs]) (by norm_num [loanZeroAprInputs, zeroInputs])
